import Mathlib

/-!
Verification of the monarch migration manager (src/monarch/__init__.py)
against its natural-language specification.

The Python source is shallowly embedded: each relevant Python function is
translated to an executable Lean definition over explicit data (strings as
Lean `String`, directories as lists of names, the filesystem and operator
answers as explicit parameters).  Python `exit()` paths, uncaught exceptions
(KeyError, AttributeError, ...) and side effects (capability invocations)
are made explicit in result types and event traces.
-/

namespace Monarch

/-! ## Decimal rendering of naturals

Python renders the collision counter with `"{}".format(counter)`, i.e. the
usual base-10 numeral.  `decimalDigitsAux` is fuel-based structural
recursion (fuel `n` suffices for `n`) so that it reduces in the kernel. -/

/-- Little-endian base-10 digits of `n`; the first argument is fuel. -/
def decimalDigitsAux : Nat → Nat → List Nat
  | 0, _ => []
  | fuel + 1, n => if n = 0 then [] else n % 10 :: decimalDigitsAux fuel (n / 10)

/-- Little-endian base-10 digits of `n`. -/
def decimalDigits (n : Nat) : List Nat :=
  decimalDigitsAux n n

/-- Model of Python `str(n)` for a nonnegative integer `n`. -/
def decimalStr (n : Nat) : String :=
  if n = 0 then "0" else ⟨(decimalDigits n).reverse.map Nat.digitChar⟩

/-- Recombine little-endian base-10 digits into a natural number. -/
def ofDecimalDigits (ds : List Nat) : Nat :=
  ds.foldr (fun d acc => d + 10 * acc) 0

/-- Inverse of `Nat.digitChar` on the digit range, used to show that decimal
rendering is injective. -/
def charToDigit (c : Char) : Nat :=
  c.toNat - 48

/-- Decode a decimal string back to a natural number. -/
def decodeDecimalStr (s : String) : Nat :=
  ofDecimalDigits ((s.data.map charToDigit).reverse)

/-! ## Archive naming (`generate_unique_name`, source lines 526-548)

The source computes `"{}__{}.dmp.zip".format(environment['db_name'], date)`,
joins it to `backup_dir`, and if that path exists retries with
`"{}__{}_{}.dmp.zip".format(db_name, date, counter)` for counter = 2, 3, ...
until a free path is found.  The filesystem is modelled as the list of paths
that exist; the unbounded `while True` loop is modelled with fuel
`store.length + 1`, which is proved sufficient below. -/

/-- Model of `os.path.join(backup_dir, name)` for a directory without a
trailing separator. -/
def path_join (dir name : String) : String :=
  dir ++ "/" ++ name

/-- First file-name attempt: `db_name__YYYY_MM_DD.dmp.zip`. -/
def name_attempt (db_name date : String) : String :=
  db_name ++ "__" ++ date ++ ".dmp.zip"

/-- Counter-suffixed attempt: `db_name__YYYY_MM_DD_c.dmp.zip`. -/
def name_attempt_counter (db_name date : String) (counter : Nat) : String :=
  db_name ++ "__" ++ date ++ "_" ++ decimalStr counter ++ ".dmp.zip"

/-- The `while True` retry loop of `generate_unique_name`: try successive
counters starting at `counter`, returning the first path not in `store`.
`fuel` bounds the number of attempts (the Python loop is unbounded). -/
def search_counter (store : List String) (backup_dir db_name date : String) :
    Nat → Nat → Option String
  | 0, _ => none
  | fuel + 1, counter =>
    let p := path_join backup_dir (name_attempt_counter db_name date counter)
    if p ∈ store then search_counter store backup_dir db_name date fuel (counter + 1)
    else some p

/-- Model of `generate_unique_name(backup_dir, environment)`: `store` is the
set of existing paths, `db_name` the environment db name and `date` the
formatted UTC date.  Returns the full path of a name that does not exist. -/
def generate_unique_name (store : List String) (backup_dir db_name date : String) :
    Option String :=
  let p := path_join backup_dir (name_attempt db_name date)
  if p ∈ store then search_counter store backup_dir db_name date (store.length + 1) 2
  else some p

/-! ## The local backup store

`backup_localy` ends with `shutil.move(zipf.filename, unique_file_path)`:
the archive is placed at the path chosen by `generate_unique_name`.  The
store is modelled as an association list of `(path, bytes)`. -/

/-- Paths present in a modelled backup store. -/
def storePaths (st : List (String × List Nat)) : List String :=
  st.map Prod.fst

/-- One run of the store-mutating tail of `backup_localy`: choose a unique
name and move the freshly produced archive (`payload`) there. -/
def backup_store_step (st : List (String × List Nat))
    (backup_dir db_name date : String) (payload : List Nat) :
    List (String × List Nat) :=
  match generate_unique_name (storePaths st) backup_dir db_name date with
  | some p => st ++ [(p, payload)]
  | none => st

/-! ## Archive payload (`zipdir` inside `backup_localy`, lines 421-428, and
`restore_db`, lines 477-486)

`zipdir` walks the dump directory with `os.walk(path)` and for every file
executes
`zip.write(os.path.join(root, file), os.path.relpath(os.path.join(root, file), root))`,
where `root` is the directory currently visited by the walk.  Paths are
modelled as lists of components; the dump output is a list of walk entries
(directory components relative to the dump root, file name, contents). -/

/-- Boolean test that the first list is a leading run of the second
(used for path components and for character suffix tests). -/
def isLeadingSegsOf {α : Type} [BEq α] : List α → List α → Bool
  | [], _ => true
  | _ :: _, [] => false
  | a :: as, b :: bs => a == b && isLeadingSegsOf as bs

/-- Model of `os.path.relpath(p, base)` in the only case the walk produces:
`base` is an ancestor of `p`. -/
def relpath_segs (p base : List String) : List String :=
  if isLeadingSegsOf base p then p.drop base.length else p

/-- One file met by `os.walk` of the dump directory: `dirs` are the path
components of its directory relative to the dump root, `fname` its name,
`content` its bytes. -/
structure WalkEntry where
  dirs : List String
  fname : String
  content : List Nat
deriving DecidableEq

/-- Model of the inner `zipdir(path, zip)` of `backup_localy`: the archive
name written for each file is `relpath(join(root, file), root)` with
`root = dumpPath ++ e.dirs`.  Returns the archive as a list of
(entry path components, bytes). -/
def zipdir (dumpPath : List String) (tree : List WalkEntry) :
    List (List String × List Nat) :=
  tree.map (fun e =>
    (relpath_segs ((dumpPath ++ e.dirs) ++ [e.fname]) (dumpPath ++ e.dirs), e.content))

/-- Model of `zip.extractall(path=temp_dir)` in `restore_db`: every archive
entry is materialised at its stored path relative to the temp directory, so
the set of relative paths reaching the restore capability is exactly the
set of entry paths.  Later entries overwrite earlier ones with the same
path, as `extractall` does on a filesystem. -/
def extract_archive (archive : List (List String × List Nat)) :
    List (List String × List Nat) :=
  archive

/-- Relative paths of the dump working directory, as the spec describes the
intended archive layout (root-relative path of every file). -/
def treeRelPaths (tree : List WalkEntry) : List (List String) :=
  tree.map (fun e => e.dirs ++ [e.fname])

/-! ## `sizeof_fmt` (lines 341-345)

```
def sizeof_fmt(num):
    for x in ['bytes','KB','MB','GB','TB']:
        if num < 1024.0:
            return "%3.1f %s" % (num, x)
        num /= 1024.0
```

The arithmetic is modelled exactly over `Rat`.  For the integer inputs the
caller supplies (`os.path.getsize`), every Python float step is exact on
the range that decides the claim: an int below 2^53 converts to float
exactly (and 1024^5 = 2^50), and division by 1024 only decrements the
exponent.  For ints at or above 2^53 the conversion rounds to nearest,
which cannot move a value from `≥ 1024^5` to below it, so the `none`
result is unaffected.  Falling off the loop returns Python `None`. -/

/-- The unit list of `sizeof_fmt`. -/
def sizeUnits : List String :=
  ["bytes", "KB", "MB", "GB", "TB"]

/-- The loop of `sizeof_fmt`: return the pre-format data `(num, unit)` at
the first unit where `num < 1024.0`, else divide and continue; `none`
models falling off the end (Python returns `None`). -/
def sizeof_fmt_loop : Rat → List String → Option (Rat × String)
  | _, [] => none
  | num, x :: xs => if num < 1024 then some (num, x) else sizeof_fmt_loop (num / 1024) xs

/-- Model of `sizeof_fmt(num)` up to the final `"%3.1f %s"` rendering. -/
def sizeof_fmt (num : Rat) : Option (Rat × String) :=
  sizeof_fmt_loop num sizeUnits

/-- Model of the size cell printed by `list_local_backups`:
`"{:50} {}".format(backup, sizeof_fmt(...))` renders the Python value
`None` as the string `"None"`; numeric rendering (`"%3.1f %s"`) is the
external formatting collaborator `fmt`. -/
def size_cell (fmt : Rat × String → String) (o : Option (Rat × String)) : String :=
  match o with
  | none => "None"
  | some p => fmt p

/-! ## Configuration (`Config`, lines 87-102)

`Config.__init__` sets only `migration_directory` and `config_directory`.
`configure_from_settings_file` exits unless the settings module has
`ENVIRONMENTS`, and sets `self.backups` only when the module has
`BACKUPS` — otherwise the `backups` attribute never exists, and reading it
raises `AttributeError`.  Attribute presence is modelled with `Option`
(outer layer), and the Python value `None` with a second `Option` where the
value itself may be `None`. -/

/-- A connection descriptor from `ENVIRONMENTS`. -/
structure Env where
  host : String
  port : Nat
  db_name : String
deriving DecidableEq

/-- The `LOCAL` backup settings dictionary; `backup_dir` may be missing. -/
structure LocalSettings where
  backup_dir : Option String
deriving DecidableEq

/-- The `BACKUPS` settings dictionary: which of the keys `LOCAL` / `S3`
are present (the S3 payload is never consulted before
`NotImplementedError`). -/
structure BackupsDict where
  localCfg : Option LocalSettings
  s3 : Option Unit
deriving DecidableEq

/-- The settings module: `environments` is `none` when the module has no
`ENVIRONMENTS` attribute; `backups` is `none` when it has no `BACKUPS`
attribute, and `some none` when `BACKUPS = None`. -/
structure Settings where
  environments : Option (List (String × Env))
  backups : Option (Option BackupsDict)

/-- The `Config` object after `configure_from_settings_file`:
`backupsAttr = none` models the `backups` attribute not existing. -/
structure Config where
  environments : List (String × Env)
  backupsAttr : Option (Option BackupsDict)

/-- Model of `Config.configure_from_settings_file`: exits with a message
when `ENVIRONMENTS` is missing, and sets the `backups` attribute only when
`BACKUPS` exists. -/
def configure_from_settings_file (s : Settings) : Except String Config :=
  match s.environments with
  | none => .error "Configuration file should have a ENVIRONMENTS method set"
  | some envs => .ok ⟨envs, s.backups⟩

/-- Names of the configured environments (Python `in` on the dict). -/
def envNames (config : Config) : List String :=
  config.environments.map Prod.fst

/-- Model of `config.environments[name]` as a lookup. -/
def envLookup (config : Config) (name : String) : Option Env :=
  (config.environments.find? (fun p => p.1 == name)).map Prod.snd

/-! ## CLI commands as trace-producing functions (C2, C3, C9)

Each command is a function from its inputs (configuration, arguments, the
interactive `click.confirm` answer, the relevant filesystem state) to an
explicit outcome.  `Halt` distinguishes a clean `exit_with_message` report
from an uncaught Python exception; `Ev` records every capability
invocation, so "no side effects" is "no destructive event in the trace". -/

/-- How a command run ends when it does not complete normally:
`exitMsg` is the clean `exit_with_message` report; the other constructors
are uncaught Python exceptions. -/
inductive Halt where
  | exitMsg (msg : String)
  | keyError (key : String)
  | attrError (attr : String)
  | valueError
  | typeError
  | notImplementedError
  | ioError (what : String)
deriving DecidableEq

/-- Whether a halt is the clean `exit_with_message` report (as opposed to
an uncaught exception). -/
def isExitMsg : Option Halt → Bool
  | some (.exitMsg _) => true
  | _ => false

/-- Observable side effects: capability invocations and the interactive
confirmation prompt (with the answer the operator gave). -/
inductive Ev where
  | confirmAsk (answer : Bool)
  | dropDb (db_name : String)
  | copyDb (from_db to_db : String)
  | dumpDb (db_name : String)
  | restoreMongo (db_name : String)
  | moveArchive (dest : String)
deriving DecidableEq

/-- Events that irreversibly touch a database or the backup store. -/
def destructive : Ev → Bool
  | .dropDb _ => true
  | .copyDb _ _ => true
  | .restoreMongo _ => true
  | _ => false

/-- A trace is confirmation-gated when every destructive event is preceded
by a `confirmAsk true`; the Boolean fold carries whether a positive
confirmation has been seen. -/
def confirmGatedB (seen : Bool) : List Ev → Bool
  | [] => true
  | e :: rest =>
    match e with
    | .confirmAsk true => confirmGatedB true rest
    | e => (!destructive e || seen) && confirmGatedB seen rest

/-- Model of Python `':' in from_to`. -/
def containsColon (s : String) : Bool :=
  s.data.contains ':'

/-- Model of Python `str.split(':')` on the character list. -/
def splitOnColonChars : List Char → List (List Char)
  | [] => [[]]
  | c :: cs =>
    match splitOnColonChars cs with
    | [] => [[]]
    | seg :: rest => if c = ':' then [] :: seg :: rest else (c :: seg) :: rest

/-- Model of Python `from_to.split(':')`. -/
def splitColon (s : String) : List String :=
  (splitOnColonChars s.data).map (fun l => ⟨l⟩)

/-- Outcome of a CLI command run: how it ended (`halt = none` is a normal
return) and every capability invocation and confirmation prompt it
performed, in order, including those before a failure. -/
structure CmdRun where
  halt : Option Halt
  events : List Ev
deriving DecidableEq

/-- Model of the `drop_db` command (lines 271-277): no environment
validation and no confirmation — `config.environments[environment]` raises
`KeyError` for an unknown name, and `drop_mongo_db` is invoked directly. -/
def drop_db_cmd (config : Config) (environment : String) : CmdRun :=
  match envLookup config environment with
  | none => ⟨some (.keyError environment), []⟩
  | some env => ⟨none, [.dropDb env.db_name]⟩

/-- Model of the `copy_db` command (lines 239-269): parse `from:to`,
validate both environments, ask for confirmation, and only on a positive
answer invoke `copy_mongo_db`.  (`config.environments is None` cannot hold
after `configure_from_settings_file`, which exits instead.) -/
def copy_db_cmd (config : Config) (from_to : String) (answer : Bool) : CmdRun :=
  if ¬ containsColon from_to then
    ⟨some (.exitMsg "Expecting from:to syntax like production:local"), []⟩
  else
    match splitColon from_to with
    | [from_db, to_db] =>
      if from_db ∉ envNames config then
        ⟨some (.exitMsg ("Environemnts does not have a specification for " ++ from_db)), []⟩
      else if to_db ∉ envNames config then
        ⟨some (.exitMsg ("Environemnts does not have a specification for " ++ to_db)), []⟩
      else if answer then ⟨none, [.confirmAsk true, .copyDb from_db to_db]⟩
      else ⟨none, [.confirmAsk false]⟩
    | _ => ⟨some .valueError, []⟩

/-- Model of `confirm_environment` (lines 304-306). -/
def confirm_environment (config : Config) (environment : String) : Option Halt :=
  if environment ∉ envNames config then
    some (.exitMsg (environment ++ " is not in settings.  Exiting ..."))
  else none

/-! ## Backup pipeline (`backup`, `backup_localy`, lines 308-327, 402-434)

`backup_localy` calls `mkdtemp()` and never removes the directory: there is
no `rmtree` (and no `try`/`finally`) anywhere in the function.  The run
record tracks whether the temporary directory was created and whether it
was removed, on every exit path.  External failures (the dump capability
raising, the zip step raising) are explicit Boolean inputs. -/

/-- Outcome of one `backup_localy` run.  `halt = none` means the function
returned normally. -/
structure BackupRun where
  halt : Option Halt
  events : List Ev
  tempCreated : Bool
  tempRemoved : Bool
  archiveDest : Option String
deriving DecidableEq

/-- Model of `backup_localy(config, env_name, local_settings)`:
check `backup_dir` is configured and exists, `mkdtemp()`, dump, zip, pick a
unique name and move the archive there.  `store` is `none` when the backup
directory does not exist, otherwise the list of paths in it; `date` is the
formatted UTC date; `dumpOk`/`zipOk` say whether the dump capability and
the zip step succeed.  No branch ever removes the temp directory. -/
def backup_localy (config : Config) (env_name : String) (ls : LocalSettings)
    (store : Option (List String)) (date : String) (dumpOk zipOk : Bool) :
    BackupRun :=
  match ls.backup_dir with
  | none =>
    ⟨some (.exitMsg "Local Settings not configured correctly, expecting backup_dir"),
      [], false, false, none⟩
  | some backup_dir =>
    match store with
    | none =>
      ⟨some (.exitMsg ("Directory [" ++ backup_dir ++ "] does not exist.  Exiting ...")),
        [], false, false, none⟩
    | some paths =>
      match envLookup config env_name with
      | none => ⟨some (.keyError env_name), [], true, false, none⟩
      | some env =>
        if ¬ dumpOk then
          ⟨some (.ioError "dump_db"), [.dumpDb env.db_name], true, false, none⟩
        else if ¬ zipOk then
          ⟨some (.ioError "zip"), [.dumpDb env.db_name], true, false, none⟩
        else
          match generate_unique_name paths backup_dir env.db_name date with
          | some dest =>
            ⟨none, [.dumpDb env.db_name, .moveArchive dest], true, false, some dest⟩
          | none => ⟨some .typeError, [.dumpDb env.db_name], true, false, none⟩

/-- Model of the `backup` command (lines 308-327): `hasattr(config,
'backups')` guard first, then `confirm_environment`, then dispatch on the
`LOCAL` / `S3` keys (`'LOCAL' in None` raises `TypeError`;
`backup_to_s3` raises `NotImplementedError` on its first line). -/
def backup_cmd (config : Config) (environment : String)
    (store : Option (List String)) (date : String) (dumpOk zipOk : Bool) :
    BackupRun :=
  match config.backupsAttr with
  | none => ⟨some (.exitMsg "BACKUPS not configured, exiting"), [], false, false, none⟩
  | some bAttr =>
    match confirm_environment config environment with
    | some h => ⟨some h, [], false, false, none⟩
    | none =>
      match bAttr with
      | none => ⟨some .typeError, [], false, false, none⟩
      | some bd =>
        match bd.localCfg with
        | some ls => backup_localy config environment ls store date dumpOk zipOk
        | none =>
          match bd.s3 with
          | some _ => ⟨some .notImplementedError, [], false, false, none⟩
          | none => ⟨some (.exitMsg "BACKUPS not configured, exiting"), [], false, false, none⟩

/-! ## Backup listing and the `backups()` helper (lines 330-361, 494-519) -/

/-- Model of `local_backups(local_config)`: a dictionary mapping each item
of the backup directory listing to its joined path. -/
def local_backups (ls : LocalSettings) (store : Option (List String)) :
    Except Halt (List (String × String)) :=
  match ls.backup_dir with
  | none => .error (.exitMsg "Local Settings not configured correctly, expecting backup_dir")
  | some backup_dir =>
    match store with
    | none => .error (.exitMsg ("Directory [" ++ backup_dir ++ "] does not exist.  Exiting ..."))
    | some items => .ok (items.map (fun i => (i, path_join backup_dir i)))

/-- Model of the `backups(config)` helper (lines 494-504): reading
`config.backups` raises `AttributeError` when the attribute was never set;
comparing with `is None` exits when it was set to `None`; then dispatch on
`LOCAL` / `S3` (`s3_backups` raises `NotImplementedError`). -/
def backups_fn (config : Config) (store : Option (List String)) :
    Except Halt (List (String × String)) :=
  match config.backupsAttr with
  | none => .error (.attrError "backups")
  | some none => .error (.exitMsg "BACKUPS not configured, exiting")
  | some (some bd) =>
    match bd.localCfg with
    | some ls => local_backups ls store
    | none =>
      match bd.s3 with
      | some _ => .error .notImplementedError
      | none => .error (.exitMsg "BACKUPS not configured, exiting")

/-- Model of the `list_backups` command (lines 348-361): same
`config.backups` attribute read (`AttributeError` when absent), then list
the store. -/
def list_backups_cmd (config : Config) (store : Option (List String)) :
    Except Halt (List (String × String)) :=
  match config.backupsAttr with
  | none => .error (.attrError "backups")
  | some none => .error (.exitMsg "BACKUPS not configured, exiting")
  | some (some bd) =>
    match bd.localCfg with
    | some ls => local_backups ls store
    | none =>
      match bd.s3 with
      | some _ => .ok []
      | none => .error (.exitMsg "BACKUPS not configured, exiting")

/-! ## Restore pipeline (`restore`, `temp_directory`, `restore_db`,
lines 437-486)

`temp_directory` is a `@contextmanager` whose body is
`temp_dir = mkdtemp(); yield temp_dir; shutil.rmtree(temp_dir)` with no
`try`/`finally`: when the `with` body raises, the generator is closed by
throwing into the `yield`, so `rmtree` never runs.  `restore_db` opens the
zip before entering the context manager. -/

/-- Outcome of one `restore_db` run. -/
structure RestoreRun where
  halt : Option Halt
  events : List Ev
  tempCreated : Bool
  tempRemoved : Bool
deriving DecidableEq

/-- Model of `restore_db(zip_path, to_environment)`: `zipOk` is whether
`zipfile.ZipFile(zip_path)` succeeds, `extractOk` whether `extractall`
succeeds, `restoreOk` whether the restore capability succeeds.  The temp
directory is removed only when the whole `with` body ran to completion. -/
def restore_db_run (to_env : Env) (zipOk extractOk restoreOk : Bool) : RestoreRun :=
  if ¬ zipOk then ⟨some (.ioError "zipfile"), [], false, false⟩
  else if ¬ extractOk then ⟨some (.ioError "extractall"), [], true, false⟩
  else if ¬ restoreOk then
    ⟨some (.ioError "restore"), [.restoreMongo to_env.db_name], true, false⟩
  else ⟨none, [.restoreMongo to_env.db_name], true, true⟩

/-- Model of the `restore` command (lines 437-468): parse `backup:to_db`,
validate the target environment, resolve the archive through
`backups(config)`, ask for confirmation, and only on a positive answer run
`restore_db`. -/
def restore_cmd (config : Config) (store : Option (List String)) (from_to : String)
    (answer : Bool) (zipOk extractOk restoreOk : Bool) : CmdRun :=
  if ¬ containsColon from_to then
    ⟨some (.exitMsg "Expecting from:to syntax like production:local"), []⟩
  else
    match splitColon from_to with
    | [backup_name, to_db] =>
      match envLookup config to_db with
      | none =>
        ⟨some (.exitMsg ("Environemnts does not have a specification for " ++ to_db)), []⟩
      | some to_env =>
        match backups_fn config store with
        | .error h => ⟨some h, []⟩
        | .ok dict =>
          if backup_name ∉ dict.map Prod.fst then
            ⟨some (.exitMsg ("Can not find backup " ++ backup_name ++
              ", run monarch list_backups to see your options")), []⟩
          else if answer then
            let run := restore_db_run to_env zipOk extractOk restoreOk
            ⟨run.halt, .confirmAsk true :: run.events⟩
          else ⟨none, [.confirmAsk false]⟩
    | _ => ⟨some .valueError, []⟩

/-! ## Migration discovery (`find_migrations`, lines 281-294) and the
`migrate` / `list_migrations` commands (lines 151-201)

`find_migrations` globs `'{dir}/*_migration.py'` (an absent directory makes
`glob` return the empty list — no error), derives the migration name with
`os.path.splitext(os.path.basename(file))[0]`, imports the module, and for
each member class whose name matches `Migration$` (excluding the two base
classes) stores it under the migration name.  Finally
`collections.OrderedDict(sorted(migrations.items()))` orders the dictionary
by Python string comparison on the keys (keys are unique, so the tuple
comparison never reaches the values).

Python compares strings lexicographically by code point; `charListLe` is
that comparison, written so it reduces in the kernel. -/

/-- Python string `<=`: lexicographic on code points. -/
def charListLe : List Char → List Char → Bool
  | [], _ => true
  | _ :: _, [] => false
  | a :: as, b :: bs =>
    if a.toNat < b.toNat then true
    else if b.toNat < a.toNat then false
    else charListLe as bs

/-- Python tuple comparison on `dict.items()` pairs, for unique keys:
comparison of the key strings. -/
def tupleLe (a b : String × String) : Prop :=
  charListLe a.1.data b.1.data = true

instance : DecidableRel tupleLe :=
  fun a b => instDecidableEqBool (charListLe a.1.data b.1.data) true

/-- Boolean suffix test on code points (model of `re.search('Migration$')`
and of the glob tail match). -/
def hasSuffixChars (s suffix : List Char) : Bool :=
  isLeadingSegsOf suffix.reverse s.reverse

/-- Model of filesystem state seen by `find_migrations`: the migration
directory listing (`none` when the directory is absent, in which case
`glob` matches nothing), and for each imported module the list of class
names `inspect.getmembers` yields (in its alphabetical member order). -/
structure MigrationFS where
  dirListing : Option (List String)
  moduleClasses : String → List String

/-- Model of `glob('{dir}/*_migration.py')`, returning base names: files of
the directory whose name ends in `_migration.py`; an absent directory
yields `[]` with no error. -/
def glob_migrations (fs : MigrationFS) : List String :=
  match fs.dirListing with
  | none => []
  | some files => files.filter (fun f => hasSuffixChars f.data "_migration.py".data)

/-- Model of `os.path.splitext(...)[0]` on a `.py` file name. -/
def splitext_py (f : String) : String :=
  ⟨f.data.take (f.data.length - 3)⟩

/-- Class-name filter of `find_migrations`: name matches `Migration$` and
is not one of the two base classes. -/
def classFilter (n : String) : Bool :=
  hasSuffixChars n.data "Migration".data && n ≠ "BaseMigration" && n ≠ "MongoBackedMigration"

/-- Python dict assignment `m[k] = v`: overwrite in place or append. -/
def dict_set (m : List (String × String)) (k v : String) : List (String × String) :=
  if (m.map Prod.fst).contains k then
    m.map (fun p => if p.1 = k then (k, v) else p)
  else m ++ [(k, v)]

/-- Model of `find_migrations(config)`: build the name → class dictionary
(for each file, the last matching member class wins, as successive
assignments of the `getmembers` loop do), then order it by key
(`sorted(migrations.items())`, modelled by the equivalent stable
`insertionSort` under the same total order). -/
def find_migrations (fs : MigrationFS) : List (String × String) :=
  let files := glob_migrations fs
  let migrations := files.foldl (fun m file =>
    let migration_name := splitext_py file
    match (fs.moduleClasses migration_name).filter classFilter with
    | [] => m
    | c :: cs => dict_set m migration_name ((c :: cs).getLast (by simp))) []
  List.insertionSort tupleLe migrations

/-- Outcome of the `migrate` command. -/
inductive MigrateResult where
  | exited (msg : String)
  | ran (processed : List String)
  | noMigrations
deriving DecidableEq

/-- Model of the `migrate` command (lines 179-201): validate the
environment, discover migrations, and process each one in the order of the
`OrderedDict`; with an empty dictionary echo `No migrations exist`. -/
def migrate_cmd (config : Config) (fs : MigrationFS) (environment : String) :
    MigrateResult :=
  if environment ∉ envNames config then
    .exited "Environment not described in settings.py"
  else
    let migrations := find_migrations fs
    if migrations.isEmpty then .noMigrations
    else .ran (migrations.map Prod.fst)

/-- Outcome of the `list_migrations` command. -/
inductive ListMigrationsResult where
  | exited (msg : String)
  | listed (names : List String)
  | noPending
deriving DecidableEq

/-- Model of the `list_migrations` command (lines 151-176): validate the
environment, discover migrations, and list them in order; with an empty
dictionary echo `No pending migrations`. -/
def list_migrations_cmd (config : Config) (fs : MigrationFS) (environment : String) :
    ListMigrationsResult :=
  if environment ∉ envNames config then
    .exited "Environment not described in settings.py"
  else
    let migrations := find_migrations fs
    if migrations.isEmpty then .noPending
    else .listed (migrations.map Prod.fst)

/-- The ordering key of a migration unit: the 12-digit timestamp following
the leading underscore of a generated name
(`_{YYYYMMDDHHMM}_{label}_migration`, see `generate_migration_name`,
lines 559-566). -/
def orderingKey (s : String) : List Char :=
  (s.data.drop 1).take 12

/-- Strict code-point order on characters, used to state the ordering-key
comparison. -/
def charLtN (a b : Char) : Prop :=
  a.toNat < b.toNat

/-- The ordering the spec promises for discovery output: ordering key
ascending, ties broken by identifier string comparison. -/
def specOrder (a b : String × String) : Prop :=
  List.Lex charLtN (orderingKey a.1) (orderingKey b.1) ∨
    (orderingKey a.1 = orderingKey b.1 ∧ tupleLe a b)

/-! ## Helper lemmas: decimal rendering is injective -/

theorem charToDigit_digitChar : ∀ d, d < 10 → charToDigit (Nat.digitChar d) = d := by
  decide

theorem decimalDigitsAux_lt_ten : ∀ fuel n d, d ∈ decimalDigitsAux fuel n → d < 10 := by
  intro fuel
  induction fuel with
  | zero => intro n d h; simp [decimalDigitsAux] at h
  | succ fuel ih =>
    intro n d h
    simp only [decimalDigitsAux] at h
    by_cases hn : n = 0
    · simp [hn] at h
    · simp only [hn, if_false, List.mem_cons] at h
      rcases h with rfl | h
      · exact Nat.mod_lt _ (by omega)
      · exact ih _ _ h

theorem ofDecimalDigits_decimalDigitsAux :
    ∀ fuel n, n ≤ fuel → ofDecimalDigits (decimalDigitsAux fuel n) = n := by
  intro fuel
  induction fuel with
  | zero => intro n hn; interval_cases n; rfl
  | succ fuel ih =>
    intro n hn
    simp only [decimalDigitsAux]
    by_cases hn0 : n = 0
    · simp [hn0, ofDecimalDigits]
    · have hdiv : n / 10 ≤ fuel := by
        have := Nat.div_lt_self (Nat.pos_of_ne_zero hn0) (by omega : 1 < 10)
        omega
      simp only [hn0, if_false, ofDecimalDigits, List.foldr_cons]
      have := ih (n / 10) hdiv
      simp only [ofDecimalDigits] at this
      rw [this]
      omega

theorem decode_decimalStr (n : Nat) : decodeDecimalStr (decimalStr n) = n := by
  by_cases hn : n = 0
  · subst hn; decide
  · simp only [decimalStr, hn, if_false, decodeDecimalStr]
    have hmap : ((decimalDigits n).reverse.map Nat.digitChar).map charToDigit
        = (decimalDigits n).reverse := by
      rw [List.map_map]
      have : ∀ d ∈ (decimalDigits n).reverse, (charToDigit ∘ Nat.digitChar) d = id d := by
        intro d hd
        have : d < 10 :=
          decimalDigitsAux_lt_ten n n d (List.mem_reverse.mp hd)
        simpa using charToDigit_digitChar d this
      rw [List.map_congr_left this, List.map_id]
    rw [hmap, List.reverse_reverse]
    exact ofDecimalDigits_decimalDigitsAux n n le_rfl

theorem decimalStr_injective : Function.Injective decimalStr :=
  Function.LeftInverse.injective decode_decimalStr

/-! ## Helper lemmas: `generate_unique_name` -/

theorem name_attempt_counter_path_injective (backup_dir db_name date : String) :
    Function.Injective
      (fun c => path_join backup_dir (name_attempt_counter db_name date c)) := by
  intro c1 c2 h
  simp only [path_join, name_attempt_counter] at h
  have hdata := congrArg String.data h
  simp only [String.data_append, List.append_assoc] at hdata
  have h1 := List.append_cancel_left hdata
  have h2 := List.append_cancel_left h1
  have h3 := List.append_cancel_left h2
  have h4 := List.append_cancel_left h3
  have h5 := List.append_cancel_left h4
  have h6 := List.append_cancel_left h5
  have h7 : (decimalStr c1).data = (decimalStr c2).data := List.append_cancel_right h6
  exact decimalStr_injective (String.ext h7)

theorem search_counter_not_mem (store : List String) (backup_dir db_name date : String) :
    ∀ fuel c p, search_counter store backup_dir db_name date fuel c = some p →
      p ∉ store := by
  intro fuel
  induction fuel with
  | zero => intro c p h; simp [search_counter] at h
  | succ fuel ih =>
    intro c p h
    simp only [search_counter] at h
    by_cases hmem : path_join backup_dir (name_attempt_counter db_name date c) ∈ store
    · exact ih _ _ (by simpa [hmem] using h)
    · have : p = path_join backup_dir (name_attempt_counter db_name date c) := by
        simpa [hmem] using h.symm
      simpa [this] using hmem

theorem search_counter_none (store : List String) (backup_dir db_name date : String) :
    ∀ fuel c, search_counter store backup_dir db_name date fuel c = none →
      ∀ k, k < fuel →
        path_join backup_dir (name_attempt_counter db_name date (c + k)) ∈ store := by
  intro fuel
  induction fuel with
  | zero => intro c _ k hk; omega
  | succ fuel ih =>
    intro c h k hk
    simp only [search_counter] at h
    by_cases hmem : path_join backup_dir (name_attempt_counter db_name date c) ∈ store
    · rcases k with _ | k
      · simpa using hmem
      · have := ih (c + 1) (by simpa [hmem] using h) k (by omega)
        have harg : c + 1 + k = c + (k + 1) := by omega
        rwa [harg] at this
    · simp [hmem] at h

theorem search_counter_succeeds (store : List String) (backup_dir db_name date : String) :
    ∃ p, search_counter store backup_dir db_name date (store.length + 1) 2 = some p := by
  rcases hcase : search_counter store backup_dir db_name date (store.length + 1) 2 with _ | p
  · exfalso
    have hall := search_counter_none store backup_dir db_name date (store.length + 1) 2 hcase
    set f : Nat → String :=
      fun c => path_join backup_dir (name_attempt_counter db_name date c) with hf
    have hinj : Function.Injective (fun k : Nat => f (2 + k)) := by
      intro k1 k2 h
      have := name_attempt_counter_path_injective backup_dir db_name date h
      omega
    have hsub : (Finset.range (store.length + 1)).image (fun k => f (2 + k))
        ⊆ store.toFinset := by
      intro x hx
      rcases Finset.mem_image.mp hx with ⟨k, hk, rfl⟩
      exact List.mem_toFinset.mpr (hall k (Finset.mem_range.mp hk))
    have hcard : ((Finset.range (store.length + 1)).image (fun k => f (2 + k))).card
        = store.length + 1 := by
      rw [Finset.card_image_of_injective _ hinj, Finset.card_range]
    have := Finset.card_le_card hsub
    have hle := List.toFinset_card_le store
    omega
  · exact ⟨p, rfl⟩

theorem generate_unique_name_spec (store : List String) (backup_dir db_name date : String) :
    ∃ p, generate_unique_name store backup_dir db_name date = some p ∧ p ∉ store := by
  simp only [generate_unique_name]
  by_cases hmem : path_join backup_dir (name_attempt db_name date) ∈ store
  · rcases search_counter_succeeds store backup_dir db_name date with ⟨p, hp⟩
    exact ⟨p, by simpa [hmem] using hp,
      search_counter_not_mem store backup_dir db_name date _ _ _ hp⟩
  · exact ⟨_, by simp [hmem], hmem⟩

theorem search_counter_first_free (store : List String) (backup_dir db_name date : String) :
    ∀ fuel c0 p, search_counter store backup_dir db_name date fuel c0 = some p →
      ∃ c, c0 ≤ c ∧ p = path_join backup_dir (name_attempt_counter db_name date c) ∧
        p ∉ store ∧
        ∀ k, c0 ≤ k → k < c →
          path_join backup_dir (name_attempt_counter db_name date k) ∈ store := by
  intro fuel
  induction fuel with
  | zero => intro c0 p h; simp [search_counter] at h
  | succ fuel ih =>
    intro c0 p h
    simp only [search_counter] at h
    by_cases hmem : path_join backup_dir (name_attempt_counter db_name date c0) ∈ store
    · rcases ih (c0 + 1) p (by simpa [hmem] using h) with ⟨c, hc0, hp, hnotmem, hbelow⟩
      refine ⟨c, by omega, hp, hnotmem, ?_⟩
      intro k hk1 hk2
      rcases Nat.eq_or_lt_of_le hk1 with rfl | hk1'
      · exact hmem
      · exact hbelow k (by omega) hk2
    · have hp : p = path_join backup_dir (name_attempt_counter db_name date c0) := by
        simpa [hmem] using h.symm
      exact ⟨c0, le_rfl, hp, by simpa [hp] using hmem, fun k hk1 hk2 => by omega⟩

theorem name_attempt_ne_counter_two (backup_dir db_name date : String) :
    path_join backup_dir (name_attempt db_name date) ≠
      path_join backup_dir (name_attempt_counter db_name date 2) := by
  intro h
  have h2 : decimalStr 2 = "2" := by decide
  have := congrArg String.length h
  simp only [path_join, name_attempt, name_attempt_counter, h2, String.length_append] at this
  have hu : ("_" : String).length = 1 := rfl
  have hd : ("2" : String).length = 1 := rfl
  omega

/-! ## Claim C6 -/

/-- Claim C6: for every backup-store state and environment,
`generate_unique_name` returns a path that does not yet exist in the store;
backing up the same environment twice on the same date yields two distinct
archive names, the second carrying the counter suffix `_2`; and the first
archive entry is appended, never overwritten (the second backup only
appends a fresh path). -/
theorem C6_unique_archive_names
    (st : List (String × List Nat)) (backup_dir db_name date : String)
    (payload1 payload2 : List Nat)
    (h1 : path_join backup_dir (name_attempt db_name date) ∉ storePaths st)
    (h2 : path_join backup_dir (name_attempt_counter db_name date 2) ∉ storePaths st) :
    (∀ (st' : List (String × List Nat)) (dir' db' date' : String),
      ∃ p, generate_unique_name (storePaths st') dir' db' date' = some p ∧
        p ∉ storePaths st') ∧
    backup_store_step st backup_dir db_name date payload1 =
      st ++ [(path_join backup_dir (name_attempt db_name date), payload1)] ∧
    backup_store_step (backup_store_step st backup_dir db_name date payload1)
        backup_dir db_name date payload2 =
      st ++ [(path_join backup_dir (name_attempt db_name date), payload1),
             (path_join backup_dir (name_attempt_counter db_name date 2), payload2)] ∧
    path_join backup_dir (name_attempt db_name date) ≠
      path_join backup_dir (name_attempt_counter db_name date 2) := by
  have hstep1 : backup_store_step st backup_dir db_name date payload1 =
      st ++ [(path_join backup_dir (name_attempt db_name date), payload1)] := by
    simp [backup_store_step, generate_unique_name, h1]
  refine ⟨fun st' dir' db' date' => generate_unique_name_spec _ _ _ _, hstep1, ?_,
    name_attempt_ne_counter_two backup_dir db_name date⟩
  rw [hstep1]
  have hpaths : storePaths (st ++ [(path_join backup_dir (name_attempt db_name date), payload1)])
      = storePaths st ++ [path_join backup_dir (name_attempt db_name date)] := by
    simp [storePaths]
  have hbase_mem : path_join backup_dir (name_attempt db_name date) ∈
      storePaths (st ++ [(path_join backup_dir (name_attempt db_name date), payload1)]) := by
    simp [hpaths]
  have h2' : path_join backup_dir (name_attempt_counter db_name date 2) ∉
      storePaths (st ++ [(path_join backup_dir (name_attempt db_name date), payload1)]) := by
    rw [hpaths]
    simp only [List.mem_append, List.mem_singleton]
    rintro (hmem | heq)
    · exact h2 hmem
    · exact name_attempt_ne_counter_two backup_dir db_name date heq.symm
  have hsearch :
      search_counter
        (storePaths (st ++ [(path_join backup_dir (name_attempt db_name date), payload1)]))
        backup_dir db_name date
        ((storePaths
          (st ++ [(path_join backup_dir (name_attempt db_name date), payload1)])).length + 1) 2
      = some (path_join backup_dir (name_attempt_counter db_name date 2)) := by
    simp only [search_counter]
    rw [if_neg h2']
  simp only [backup_store_step, generate_unique_name, if_pos hbase_mem, hsearch]
  simp [List.append_assoc]

/-- Witness for C6 at a concrete empty store. -/
theorem C6_unique_archive_names_witness :
    (∀ (st' : List (String × List Nat)) (dir' db' date' : String),
      ∃ p, generate_unique_name (storePaths st') dir' db' date' = some p ∧
        p ∉ storePaths st') ∧
    backup_store_step [] "backups" "mydb" "2014_06_18" [1] =
      [] ++ [(path_join "backups" (name_attempt "mydb" "2014_06_18"), [1])] ∧
    backup_store_step (backup_store_step [] "backups" "mydb" "2014_06_18" [1])
        "backups" "mydb" "2014_06_18" [2] =
      [] ++ [(path_join "backups" (name_attempt "mydb" "2014_06_18"), [1]),
             (path_join "backups" (name_attempt_counter "mydb" "2014_06_18" 2), [2])] ∧
    path_join "backups" (name_attempt "mydb" "2014_06_18") ≠
      path_join "backups" (name_attempt_counter "mydb" "2014_06_18" 2) :=
  C6_unique_archive_names [] "backups" "mydb" "2014_06_18" [1] [2]
    (by decide) (by decide)

/-! ## Claim C7 (corrected: the extension is `.dmp.zip`, not `.zip`) -/

/-- Counterexample to claim C7 as stated: the first archive name for db
`mydb` on 2014_06_18 is `mydb__2014_06_18.dmp.zip`, not the claimed
`mydb__2014_06_18.zip`. -/
theorem C7_counterexample_extension :
    generate_unique_name [] "backups" "mydb" "2014_06_18" =
      some "backups/mydb__2014_06_18.dmp.zip" ∧
    ("backups/mydb__2014_06_18.dmp.zip" : String) ≠ "backups/mydb__2014_06_18.zip" := by
  constructor
  · decide
  · decide

/-- Claim C7 as amended: the destination archive name is
`{db_name}__{YYYY_MM_DD}.dmp.zip`, and when that path already exists the
counter variant `{db_name}__{YYYY_MM_DD}_{c}.dmp.zip` is tried for
c = 2, 3, ... until the first free name is found. -/
theorem C7_naming_scheme (store : List String) (backup_dir db_name date p : String)
    (h : generate_unique_name store backup_dir db_name date = some p) :
    (path_join backup_dir (name_attempt db_name date) ∉ store ∧
      p = path_join backup_dir (name_attempt db_name date)) ∨
    (path_join backup_dir (name_attempt db_name date) ∈ store ∧
      ∃ c, 2 ≤ c ∧ p = path_join backup_dir (name_attempt_counter db_name date c) ∧
        p ∉ store ∧
        ∀ k, 2 ≤ k → k < c →
          path_join backup_dir (name_attempt_counter db_name date k) ∈ store) := by
  simp only [generate_unique_name] at h
  by_cases hmem : path_join backup_dir (name_attempt db_name date) ∈ store
  · right
    refine ⟨hmem, ?_⟩
    rcases search_counter_first_free store backup_dir db_name date _ _ _
      (by simpa [hmem] using h) with ⟨c, hc2, hp, hnot, hbelow⟩
    exact ⟨c, hc2, hp, hnot, hbelow⟩
  · left
    exact ⟨hmem, by simpa [hmem] using h.symm⟩

/-- Witness for C7 at a store already holding the same-day archive. -/
theorem C7_naming_scheme_witness :
    (path_join "backups" (name_attempt "mydb" "2014_06_18") ∉
        ["backups/mydb__2014_06_18.dmp.zip"] ∧
      "backups/mydb__2014_06_18_2.dmp.zip" =
        path_join "backups" (name_attempt "mydb" "2014_06_18")) ∨
    (path_join "backups" (name_attempt "mydb" "2014_06_18") ∈
        ["backups/mydb__2014_06_18.dmp.zip"] ∧
      ∃ c, 2 ≤ c ∧
        ("backups/mydb__2014_06_18_2.dmp.zip" : String) =
          path_join "backups" (name_attempt_counter "mydb" "2014_06_18" c) ∧
        ("backups/mydb__2014_06_18_2.dmp.zip" : String) ∉
          ["backups/mydb__2014_06_18.dmp.zip"] ∧
        ∀ k, 2 ≤ k → k < c →
          path_join "backups" (name_attempt_counter "mydb" "2014_06_18" k) ∈
            ["backups/mydb__2014_06_18.dmp.zip"]) :=
  C7_naming_scheme ["backups/mydb__2014_06_18.dmp.zip"] "backups" "mydb" "2014_06_18"
    "backups/mydb__2014_06_18_2.dmp.zip" (by decide)

/-! ## Claim C1 (code bug: `zipdir` flattens nested paths)

`backup_localy`'s `zipdir` computes the archive name as
`os.path.relpath(os.path.join(root, file), root)`, which is identically the
bare file name: the base of the `relpath` is the walked directory itself
instead of the dump root.  Archives therefore store basenames, not
root-relative paths, and a nested dump directory does not round-trip. -/

/-- Claim C1 is violated by the code: dumping a working directory holding
the single nested file `sub/a.bson` produces an archive whose single entry
path is `a.bson` (the basename), so unpacking reproduces `a.bson`, not the
original root-relative path `sub/a.bson`. -/
theorem C1_zipdir_flattens_nested_paths :
    zipdir ["tmp", "dump"] [⟨["sub"], "a.bson", [1, 2, 3]⟩] =
      [(["a.bson"], [1, 2, 3])] ∧
    extract_archive (zipdir ["tmp", "dump"] [⟨["sub"], "a.bson", [1, 2, 3]⟩]) =
      [(["a.bson"], [1, 2, 3])] ∧
    treeRelPaths [⟨["sub"], "a.bson", [1, 2, 3]⟩] = [["sub", "a.bson"]] ∧
    (extract_archive (zipdir ["tmp", "dump"] [⟨["sub"], "a.bson", [1, 2, 3]⟩])).map
        Prod.fst ≠ treeRelPaths [⟨["sub"], "a.bson", [1, 2, 3]⟩] := by
  refine ⟨by decide, by decide, by decide, by decide⟩

/-! ## Claim C10 (`sizeof_fmt`) -/

theorem sizeof_fmt_loop_none :
    ∀ (us : List String) (q : Rat), (1024 : Rat) ^ us.length ≤ q →
      sizeof_fmt_loop q us = none := by
  intro us
  induction us with
  | nil => intro q _; rfl
  | cons x xs ih =>
    intro q hq
    simp only [List.length_cons] at hq
    have hpow : (1024 : Rat) ≤ 1024 ^ (xs.length + 1) :=
      le_self_pow₀ (by norm_num) (by omega)
    have hbig : ¬ q < 1024 := by linarith
    rw [sizeof_fmt_loop, if_neg hbig]
    apply ih
    rw [le_div_iff₀ (by norm_num : (0 : Rat) < 1024), ← pow_succ]
    exact hq

theorem sizeof_fmt_loop_some :
    ∀ (us : List String) (q : Rat), 0 ≤ q → us ≠ [] → q < (1024 : Rat) ^ us.length →
      ∃ k, k < us.length ∧ sizeof_fmt_loop q us = some (q / 1024 ^ k, us.getD k "") := by
  intro us
  induction us with
  | nil => intro q _ hne _; exact absurd rfl hne
  | cons x xs ih =>
    intro q hq _ hlt
    by_cases hsmall : q < 1024
    · exact ⟨0, by simp, by simp [sizeof_fmt_loop, hsmall]⟩
    · rcases xs with _ | ⟨y, ys⟩
      · exfalso
        simp only [List.length_cons, List.length_nil, pow_one] at hlt
        exact hsmall (by simpa using hlt)
      · have hq' : (0 : Rat) ≤ q / 1024 := by positivity
        have hlt' : q / 1024 < (1024 : Rat) ^ (y :: ys).length := by
          rw [div_lt_iff₀ (by norm_num : (0 : Rat) < 1024)]
          calc q < 1024 ^ (x :: y :: ys).length := hlt
          _ = 1024 ^ (y :: ys).length * 1024 := by
            rw [List.length_cons, pow_succ]
        rcases ih (q / 1024) hq' (by simp) hlt' with ⟨k, hk, hres⟩
        refine ⟨k + 1, by simpa using Nat.succ_lt_succ hk, ?_⟩
        have hstep : sizeof_fmt_loop q (x :: y :: ys) = sizeof_fmt_loop (q / 1024) (y :: ys) := by
          rw [sizeof_fmt_loop, if_neg hsmall]
        rw [hstep, hres, div_div, ← pow_succ']
        rfl

/-- Claim C10: for every archive size strictly below 1024^5 bytes,
`sizeof_fmt` returns the scaled number together with a unit drawn from
bytes/KB/MB/GB/TB; for any size of 1024^5 bytes or more it falls off the
loop and returns `None`, which the `list_backups` size cell renders as the
string `"None"`. -/
theorem C10_sizeof_fmt_spec (n : Nat) :
    (n < 1024 ^ 5 →
      ∃ k, k < 5 ∧ sizeof_fmt (n : Rat) = some ((n : Rat) / 1024 ^ k, sizeUnits.getD k "") ∧
        sizeUnits.getD k "" ∈ sizeUnits) ∧
    (1024 ^ 5 ≤ n →
      sizeof_fmt (n : Rat) = none ∧
      ∀ fmt, size_cell fmt (sizeof_fmt (n : Rat)) = "None") := by
  constructor
  · intro hlt
    have hlt' : (n : Rat) < 1024 ^ 5 := by exact_mod_cast hlt
    rcases sizeof_fmt_loop_some sizeUnits (n : Rat) (by positivity) (by simp [sizeUnits])
      (by simpa [sizeUnits] using hlt') with ⟨k, hk, hres⟩
    have hk5 : k < 5 := by simpa [sizeUnits] using hk
    refine ⟨k, hk5, hres, ?_⟩
    interval_cases k <;> simp [sizeUnits]
  · intro hge
    have hge' : (1024 : Rat) ^ 5 ≤ (n : Rat) := by exact_mod_cast hge
    have hnone : sizeof_fmt (n : Rat) = none :=
      sizeof_fmt_loop_none sizeUnits (n : Rat) (by simpa [sizeUnits] using hge')
    exact ⟨hnone, fun fmt => by simp [size_cell, hnone]⟩

/-- Witness for C10 at sizes 700 (below the TB limit) and 1024^5 (at it). -/
theorem C10_sizeof_fmt_spec_witness :
    (∃ k, k < 5 ∧
      sizeof_fmt ((700 : Nat) : Rat) =
        some (((700 : Nat) : Rat) / 1024 ^ k, sizeUnits.getD k "") ∧
      sizeUnits.getD k "" ∈ sizeUnits) ∧
    sizeof_fmt ((1024 ^ 5 : Nat) : Rat) = none :=
  ⟨(C10_sizeof_fmt_spec 700).1 (by norm_num),
    ((C10_sizeof_fmt_spec (1024 ^ 5)).2 le_rfl).1⟩

/-! ## Helper lemmas: environment lookup -/

theorem envLookup_eq_none (config : Config) (n : String)
    (h : n ∉ envNames config) : envLookup config n = none := by
  have hfind : config.environments.find? (fun p => p.1 == n) = none := by
    rw [List.find?_eq_none]
    intro p hp
    simp only [beq_iff_eq]
    intro hcontra
    exact h (by simpa [envNames, hcontra] using List.mem_map_of_mem Prod.fst hp)
  simp [envLookup, hfind]

theorem envLookup_isSome (config : Config) (n : String)
    (h : n ∈ envNames config) : ∃ e, envLookup config n = some e := by
  simp only [envNames, List.mem_map] at h
  rcases h with ⟨p, hp, rfl⟩
  have : (config.environments.find? (fun q => q.1 == p.1)).isSome := by
    rw [List.find?_isSome]
    exact ⟨p, hp, by simp⟩
  rcases Option.isSome_iff_exists.mp this with ⟨q, hq⟩
  exact ⟨q.2, by simp [envLookup, hq]⟩

/-! ## Claim C9 (missing BACKUPS: `backup` exits cleanly, `list_backups`
and `restore` raise `AttributeError`) -/

/-- Claim C9: when the settings module defines no `BACKUPS`, the `backup`
command halts with the report `BACKUPS not configured, exiting`, while
`list_backups` and `restore` — which evaluate `config.backups is None`
instead of testing attribute existence — die with an uncaught
`AttributeError` because `Config` never initialises the `backups`
attribute. -/
theorem C9_missing_backups_attribute
    (s : Settings) (envs : List (String × Env)) (cfg : Config)
    (store : Option (List String)) (environment date : String) (dumpOk zipOk : Bool)
    (from_to backup_name to_db : String) (ans zOk eOk rOk : Bool)
    (henvs : s.environments = some envs)
    (hnob : s.backups = none)
    (hcfg : configure_from_settings_file s = .ok cfg) :
    (backup_cmd cfg environment store date dumpOk zipOk).halt =
      some (.exitMsg "BACKUPS not configured, exiting") ∧
    list_backups_cmd cfg store = .error (.attrError "backups") ∧
    (containsColon from_to = true → splitColon from_to = [backup_name, to_db] →
      to_db ∈ envNames cfg →
      (restore_cmd cfg store from_to ans zOk eOk rOk).halt = some (.attrError "backups")) := by
  have hattr : cfg.backupsAttr = none := by
    simp only [configure_from_settings_file, henvs] at hcfg
    cases hcfg
    exact hnob
  refine ⟨by simp [backup_cmd, hattr], by simp [list_backups_cmd, hattr], ?_⟩
  intro hcolon hsplit hto
  rcases envLookup_isSome cfg to_db hto with ⟨e, he⟩
  simp [restore_cmd, hcolon, hsplit, he, backups_fn, hattr]

/-- Witness for C9 at a concrete settings module without BACKUPS. -/
theorem C9_missing_backups_attribute_witness :
    (backup_cmd ⟨[("development", ⟨"localhost", 27017, "devdb"⟩)], none⟩ "development"
        (some []) "2014_06_18" true true).halt =
      some (.exitMsg "BACKUPS not configured, exiting") ∧
    list_backups_cmd ⟨[("development", ⟨"localhost", 27017, "devdb"⟩)], none⟩ (some []) =
      .error (.attrError "backups") ∧
    (restore_cmd ⟨[("development", ⟨"localhost", 27017, "devdb"⟩)], none⟩ (some [])
        "b:development" false false false false).halt = some (.attrError "backups") := by
  have h := C9_missing_backups_attribute
    ⟨some [("development", ⟨"localhost", 27017, "devdb"⟩)], none⟩
    [("development", ⟨"localhost", 27017, "devdb"⟩)]
    ⟨[("development", ⟨"localhost", 27017, "devdb"⟩)], none⟩
    (some []) "development" "2014_06_18" true true
    "b:development" "b" "development" false false false false
    rfl rfl rfl
  exact ⟨h.1, h.2.1, h.2.2 (by decide) (by decide) (by decide)⟩

/-! ## Claim C2 (corrected: `drop_db` asks for no confirmation) -/

/-- Counterexample to claim C2 as stated: `drop_db` invokes the drop
capability with no confirmation prompt at all — its trace contains a
destructive event that no `confirmAsk true` precedes. -/
theorem C2_counterexample_drop_db_unconfirmed :
    drop_db_cmd ⟨[("development", ⟨"localhost", 27017, "devdb"⟩)], none⟩ "development" =
      ⟨none, [.dropDb "devdb"]⟩ ∧
    confirmGatedB false
      (drop_db_cmd ⟨[("development", ⟨"localhost", 27017, "devdb"⟩)], none⟩
        "development").events = false := by
  exact ⟨by decide, by decide⟩

/-- Claim C2 as amended: for `copy_db` and `restore` the destructive
capability is invoked only after an explicit positive confirmation
(every trace is confirmation-gated), and a declined confirmation halts the
command with no destructive event; `drop_db`, however, invokes the drop
capability without any confirmation. -/
theorem C2_confirmation_gating
    (cfg : Config) (from_to : String) (ans : Bool) (store : Option (List String))
    (zOk eOk rOk : Bool) :
    confirmGatedB false (copy_db_cmd cfg from_to ans).events = true ∧
    confirmGatedB false (restore_cmd cfg store from_to ans zOk eOk rOk).events = true ∧
    (ans = false →
      (copy_db_cmd cfg from_to ans).events.all (fun e => !destructive e) = true ∧
      (restore_cmd cfg store from_to ans zOk eOk rOk).events.all
        (fun e => !destructive e) = true) := by
  have hcopy : ∀ b : Bool, confirmGatedB false (copy_db_cmd cfg from_to b).events = true := by
    intro b
    unfold copy_db_cmd
    split
    · rfl
    · split
      · split
        · rfl
        · split
          · rfl
          · cases b <;> simp [confirmGatedB, destructive]
      · rfl
  have hrest : ∀ b : Bool,
      confirmGatedB false (restore_cmd cfg store from_to b zOk eOk rOk).events = true := by
    intro b
    unfold restore_cmd
    split
    · rfl
    · split
      · split
        · rfl
        · split
          · rfl
          · split
            · rfl
            · cases b <;> cases zOk <;> cases eOk <;> cases rOk <;>
                simp [confirmGatedB, destructive, restore_db_run]
      · rfl
  refine ⟨hcopy ans, hrest ans, ?_⟩
  rintro rfl
  constructor
  · unfold copy_db_cmd
    split
    · rfl
    · split
      · split
        · rfl
        · split
          · rfl
          · simp [destructive]
      · rfl
  · unfold restore_cmd
    split
    · rfl
    · split
      · split
        · rfl
        · split
          · rfl
          · split
            · rfl
            · simp [destructive]
      · rfl

/-- Witness for C2 with a declined confirmation on concrete inputs. -/
theorem C2_confirmation_gating_witness :
    confirmGatedB false
      (copy_db_cmd
        ⟨[("development", ⟨"localhost", 27017, "devdb"⟩),
          ("production", ⟨"remotehost", 27017, "proddb"⟩)], none⟩
        "production:development" false).events = true ∧
    (copy_db_cmd
        ⟨[("development", ⟨"localhost", 27017, "devdb"⟩),
          ("production", ⟨"remotehost", 27017, "proddb"⟩)], none⟩
        "production:development" false).events.all (fun e => !destructive e) = true := by
  have h := C2_confirmation_gating
    ⟨[("development", ⟨"localhost", 27017, "devdb"⟩),
      ("production", ⟨"remotehost", 27017, "proddb"⟩)], none⟩
    "production:development" false (some []) false false false
  exact ⟨h.1, (h.2.2 rfl).1⟩

/-! ## Claim C3 (corrected: `drop_db` does not validate the environment) -/

/-- Counterexample to claim C3 as stated: `drop_db` with an environment
name absent from the configuration raises an uncaught `KeyError`
(`config.environments[environment]`), not the fatal report
`exit_with_message` produces. -/
theorem C3_counterexample_drop_db_keyerror :
    drop_db_cmd ⟨[("development", ⟨"localhost", 27017, "devdb"⟩)], none⟩ "production" =
      ⟨some (.keyError "production"), []⟩ ∧
    isExitMsg (drop_db_cmd ⟨[("development", ⟨"localhost", 27017, "devdb"⟩)], none⟩
      "production").halt = false := by
  exact ⟨by decide, by decide⟩

/-- Claim C3 as amended: `list_migrations`, `migrate`, `copy_db`, `backup`
and `restore` validate that the environment name exists in the loaded
configuration before performing any action and halt with a report when it
does not; `drop_db` performs no such validation and dies with an uncaught
`KeyError` instead. -/
theorem C3_environment_validation
    (cfg : Config) (env other : String) (fs : MigrationFS)
    (store : Option (List String)) (date : String) (dumpOk zipOk ans : Bool)
    (from_to : String) (zOk eOk rOk : Bool) (bd : BackupsDict)
    (h : env ∉ envNames cfg) :
    list_migrations_cmd cfg fs env = .exited "Environment not described in settings.py" ∧
    migrate_cmd cfg fs env = .exited "Environment not described in settings.py" ∧
    (cfg.backupsAttr = some (some bd) →
      backup_cmd cfg env store date dumpOk zipOk =
        ⟨some (.exitMsg (env ++ " is not in settings.  Exiting ...")), [], false, false, none⟩) ∧
    (containsColon from_to = true → splitColon from_to = [env, other] →
      copy_db_cmd cfg from_to ans =
        ⟨some (.exitMsg ("Environemnts does not have a specification for " ++ env)), []⟩) ∧
    (containsColon from_to = true → splitColon from_to = [other, env] →
      restore_cmd cfg store from_to ans zOk eOk rOk =
        ⟨some (.exitMsg ("Environemnts does not have a specification for " ++ env)), []⟩) ∧
    drop_db_cmd cfg env = ⟨some (.keyError env), []⟩ := by
  refine ⟨by simp [list_migrations_cmd, h], by simp [migrate_cmd, h], ?_, ?_, ?_, ?_⟩
  · intro hbd
    simp [backup_cmd, hbd, confirm_environment, h]
  · intro hcolon hsplit
    simp [copy_db_cmd, hcolon, hsplit, h]
  · intro hcolon hsplit
    simp [restore_cmd, hcolon, hsplit, envLookup_eq_none cfg env h]
  · simp [drop_db_cmd, envLookup_eq_none cfg env h]

/-- Witness for C3 at a configuration that only knows `development`. -/
theorem C3_environment_validation_witness :
    list_migrations_cmd ⟨[("development", ⟨"localhost", 27017, "devdb"⟩)],
        some (some ⟨some ⟨some "backups"⟩, none⟩)⟩ ⟨none, fun _ => []⟩ "production" =
      .exited "Environment not described in settings.py" ∧
    migrate_cmd ⟨[("development", ⟨"localhost", 27017, "devdb"⟩)],
        some (some ⟨some ⟨some "backups"⟩, none⟩)⟩ ⟨none, fun _ => []⟩ "production" =
      .exited "Environment not described in settings.py" ∧
    backup_cmd ⟨[("development", ⟨"localhost", 27017, "devdb"⟩)],
        some (some ⟨some ⟨some "backups"⟩, none⟩)⟩ "production" (some []) "2014_06_18"
        true true =
      ⟨some (.exitMsg ("production" ++ " is not in settings.  Exiting ...")), [],
        false, false, none⟩ ∧
    copy_db_cmd ⟨[("development", ⟨"localhost", 27017, "devdb"⟩)],
        some (some ⟨some ⟨some "backups"⟩, none⟩)⟩ "production:development" false =
      ⟨some (.exitMsg ("Environemnts does not have a specification for " ++ "production")),
        []⟩ ∧
    restore_cmd ⟨[("development", ⟨"localhost", 27017, "devdb"⟩)],
        some (some ⟨some ⟨some "backups"⟩, none⟩)⟩ (some []) "b:production" false
        false false false =
      ⟨some (.exitMsg ("Environemnts does not have a specification for " ++ "production")),
        []⟩ ∧
    drop_db_cmd ⟨[("development", ⟨"localhost", 27017, "devdb"⟩)],
        some (some ⟨some ⟨some "backups"⟩, none⟩)⟩ "production" =
      ⟨some (.keyError "production"), []⟩ := by
  have h1 := C3_environment_validation
    ⟨[("development", ⟨"localhost", 27017, "devdb"⟩)],
      some (some ⟨some ⟨some "backups"⟩, none⟩)⟩
    "production" "development" ⟨none, fun _ => []⟩ (some []) "2014_06_18"
    true true false "production:development" false false false
    ⟨some ⟨some "backups"⟩, none⟩ (by decide)
  have h2 := C3_environment_validation
    ⟨[("development", ⟨"localhost", 27017, "devdb"⟩)],
      some (some ⟨some ⟨some "backups"⟩, none⟩)⟩
    "production" "b" ⟨none, fun _ => []⟩ (some []) "2014_06_18"
    true true false "b:production" false false false
    ⟨some ⟨some "backups"⟩, none⟩ (by decide)
  exact ⟨h1.1, h1.2.1, h1.2.2.1 rfl, h1.2.2.2.1 (by decide) (by decide),
    h2.2.2.2.2.1 (by decide) (by decide), h1.2.2.2.2.2⟩

/-! ## Claim C4 (corrected: the temporary directories are not cleaned up on
every exit path) -/

/-- Counterexample to claim C4 as stated: a fully successful `backup` run
creates a temporary working directory and returns without ever deleting
it — `backup_localy` contains no cleanup call on any path, including
success. -/
theorem C4_counterexample_backup_leaks_temp_dir :
    (backup_cmd ⟨[("development", ⟨"localhost", 27017, "devdb"⟩)],
        some (some ⟨some ⟨some "backups"⟩, none⟩)⟩ "development" (some [])
        "2014_06_18" true true).halt = none ∧
    (backup_cmd ⟨[("development", ⟨"localhost", 27017, "devdb"⟩)],
        some (some ⟨some ⟨some "backups"⟩, none⟩)⟩ "development" (some [])
        "2014_06_18" true true).tempCreated = true ∧
    (backup_cmd ⟨[("development", ⟨"localhost", 27017, "devdb"⟩)],
        some (some ⟨some ⟨some "backups"⟩, none⟩)⟩ "development" (some [])
        "2014_06_18" true true).tempRemoved = false := by
  exact ⟨by decide, by decide, by decide⟩

/-- Claim C4 as amended: `backup_localy` never deletes its temporary
working directory, on any exit path (success included), and `restore_db`
deletes its temporary directory exactly when the whole unpack-and-restore
body succeeds — the `temp_directory` context manager has no
`try`/`finally`, so any failure inside the body skips the removal. -/
theorem C4_temp_directory_cleanup
    (cfg : Config) (env : String) (ls : LocalSettings) (store : Option (List String))
    (date : String) (dumpOk zipOk : Bool) (to_env : Env) (zOk eOk rOk : Bool) :
    (backup_localy cfg env ls store date dumpOk zipOk).tempRemoved = false ∧
    ((restore_db_run to_env zOk eOk rOk).tempRemoved = true ↔
      zOk = true ∧ eOk = true ∧ rOk = true) := by
  constructor
  · unfold backup_localy
    split
    · rfl
    · split
      · rfl
      · split
        · rfl
        · split
          · rfl
          · split
            · rfl
            · split
              · rfl
              · rfl
  · cases zOk <;> cases eOk <;> cases rOk <;> simp [restore_db_run]

/-- Witness for C4 at a concrete successful backup and failed restore. -/
theorem C4_temp_directory_cleanup_witness :
    (backup_localy ⟨[("development", ⟨"localhost", 27017, "devdb"⟩)], none⟩
      "development" ⟨some "backups"⟩ (some []) "2014_06_18" true true).tempRemoved = false ∧
    ((restore_db_run ⟨"localhost", 27017, "devdb"⟩ true true false).tempRemoved = true ↔
      true = true ∧ true = true ∧ false = true) :=
  C4_temp_directory_cleanup ⟨[("development", ⟨"localhost", 27017, "devdb"⟩)], none⟩
    "development" ⟨some "backups"⟩ (some []) "2014_06_18" true true
    ⟨"localhost", 27017, "devdb"⟩ true true false

/-! ## Helper lemmas: the Python string order -/

theorem charListLe_total : ∀ a b : List Char,
    charListLe a b = true ∨ charListLe b a = true := by
  intro a
  induction a with
  | nil => intro b; left; rfl
  | cons x xs ih =>
    intro b
    cases b with
    | nil => right; rfl
    | cons y ys =>
      simp only [charListLe]
      rcases Nat.lt_trichotomy x.toNat y.toNat with h | h | h
      · left; simp [h]
      · have h1 : ¬ x.toNat < y.toNat := by omega
        have h2 : ¬ y.toNat < x.toNat := by omega
        simpa [h1, h2] using ih ys
      · right; simp [h]

theorem charListLe_trans : ∀ a b c : List Char,
    charListLe a b = true → charListLe b c = true → charListLe a c = true := by
  intro a
  induction a with
  | nil => intro b c _ _; rfl
  | cons x xs ih =>
    intro b c h1 h2
    cases b with
    | nil => simp [charListLe] at h1
    | cons y ys =>
      cases c with
      | nil => simp [charListLe] at h2
      | cons z zs =>
        simp only [charListLe] at h1 h2 ⊢
        split_ifs at h1 h2 ⊢ <;>
          first
          | rfl
          | exact ih ys zs h1 h2
          | (exfalso; omega)

theorem charListLe_cons_same (c : Char) (l m : List Char) :
    charListLe (c :: l) (c :: m) = charListLe l m := by
  simp [charListLe]

theorem charListLe_append_of_len_eq :
    ∀ (ta tb ra rb : List Char), ta.length = tb.length →
      charListLe (ta ++ ra) (tb ++ rb) = true →
      List.Lex charLtN ta tb ∨ ta = tb := by
  intro ta
  induction ta with
  | nil =>
    intro tb ra rb hlen _
    right
    exact (List.length_eq_zero.mp hlen.symm).symm
  | cons x xs ih =>
    intro tb ra rb hlen h
    cases tb with
    | nil => simp at hlen
    | cons y ys =>
      simp only [List.cons_append, charListLe] at h
      by_cases hxy : x.toNat < y.toNat
      · exact Or.inl (List.Lex.rel hxy)
      · by_cases hyx : y.toNat < x.toNat
        · simp [hxy, hyx] at h
        · have hx : x = y := by
            apply Char.ext
            apply UInt32.ext
            have : x.toNat = y.toNat := by omega
            exact this
          subst hx
          have hlen' : xs.length = ys.length := by simpa using hlen
          have h' : charListLe (xs ++ ra) (ys ++ rb) = true := by
            simpa [hxy] using h
          rcases ih ys ra rb hlen' h' with hlex | heq
          · exact Or.inl (List.Lex.cons hlex)
          · exact Or.inr (by rw [heq])

theorem specOrder_of_tupleLe (a b : String × String)
    (ha : a.1.data.head? = some '_' ∧ 13 ≤ a.1.data.length)
    (hb : b.1.data.head? = some '_' ∧ 13 ≤ b.1.data.length)
    (hle : tupleLe a b) : specOrder a b := by
  obtain ⟨ha1, ha2⟩ := ha
  obtain ⟨hb1, hb2⟩ := hb
  rcases hda : a.1.data with _ | ⟨c, cs⟩
  · simp [hda] at ha1
  rcases hdb : b.1.data with _ | ⟨d, ds⟩
  · simp [hdb] at hb1
  have hc : c = '_' := by simpa [hda] using ha1
  have hd : d = '_' := by simpa [hdb] using hb1
  subst hc
  subst hd
  have hcs : 12 ≤ cs.length := by
    have := ha2
    rw [hda] at this
    simpa using this
  have hds : 12 ≤ ds.length := by
    have := hb2
    rw [hdb] at this
    simpa using this
  have hkeya : orderingKey a.1 = cs.take 12 := by simp [orderingKey, hda]
  have hkeyb : orderingKey b.1 = ds.take 12 := by simp [orderingKey, hdb]
  have hle' : charListLe cs ds = true := by
    have := hle
    unfold tupleLe at this
    rw [hda, hdb, charListLe_cons_same] at this
    exact this
  have hsplit_cs : cs.take 12 ++ cs.drop 12 = cs := List.take_append_drop 12 cs
  have hsplit_ds : ds.take 12 ++ ds.drop 12 = ds := List.take_append_drop 12 ds
  have hlen : (cs.take 12).length = (ds.take 12).length := by
    simp [List.length_take, Nat.min_eq_left hcs, Nat.min_eq_left hds]
  have happ : charListLe (cs.take 12 ++ cs.drop 12) (ds.take 12 ++ ds.drop 12) = true := by
    rw [hsplit_cs, hsplit_ds]; exact hle'
  rcases charListLe_append_of_len_eq (cs.take 12) (ds.take 12) (cs.drop 12) (ds.drop 12)
      hlen happ with hlex | heq
  · left
    rw [hkeya, hkeyb]
    exact hlex
  · right
    rw [hkeya, hkeyb]
    exact ⟨heq, hle⟩

/-! ## Claim C5 (discovery ordering and runner order) -/

/-- Claim C5: migration discovery returns the discovered units
deterministically ordered by ordering key (the 12-digit timestamp prefix)
ascending, with ties broken by identifier string comparison, and the
migration runner processes them in exactly that order.  The shape
hypothesis says every discovered identifier has the generated form
`_{12-digit timestamp}...`. -/
theorem C5_discovery_ordering (fs : MigrationFS) (cfg : Config) (env : String)
    (hshape : ∀ p ∈ find_migrations fs,
      p.1.data.head? = some '_' ∧ 13 ≤ p.1.data.length) :
    (find_migrations fs).Pairwise specOrder ∧
    (env ∈ envNames cfg → find_migrations fs ≠ [] →
      migrate_cmd cfg fs env = .ran ((find_migrations fs).map Prod.fst)) := by
  constructor
  · have hsorted : (find_migrations fs).Pairwise tupleLe := by
      unfold find_migrations
      exact @List.sorted_insertionSort _ tupleLe _
        ⟨fun a b => charListLe_total a.1.data b.1.data⟩
        ⟨fun a b c => charListLe_trans a.1.data b.1.data c.1.data⟩ _
    exact hsorted.imp_of_mem
      (fun ha hb hr => specOrder_of_tupleLe _ _ (hshape _ ha) (hshape _ hb) hr)
  · intro henv hne
    unfold migrate_cmd
    rw [if_neg (not_not_intro henv)]
    rcases hfm : find_migrations fs with _ | ⟨q, qs⟩
    · exact absurd hfm hne
    · simp [hfm]

/-- Witness for C5 on a concrete two-file migration directory. -/
theorem C5_discovery_ordering_witness :
    (find_migrations
      ⟨some ["_202306011200_b_migration.py", "_202301010000_a_migration.py"],
        fun n => if n = "_202301010000_a_migration" then ["AMigration"]
          else ["BMigration"]⟩).Pairwise specOrder ∧
    migrate_cmd ⟨[("development", ⟨"localhost", 27017, "devdb"⟩)], none⟩
      ⟨some ["_202306011200_b_migration.py", "_202301010000_a_migration.py"],
        fun n => if n = "_202301010000_a_migration" then ["AMigration"]
          else ["BMigration"]⟩ "development" =
      .ran ((find_migrations
        ⟨some ["_202306011200_b_migration.py", "_202301010000_a_migration.py"],
          fun n => if n = "_202301010000_a_migration" then ["AMigration"]
            else ["BMigration"]⟩).map Prod.fst) := by
  have h := C5_discovery_ordering
    ⟨some ["_202306011200_b_migration.py", "_202301010000_a_migration.py"],
      fun n => if n = "_202301010000_a_migration" then ["AMigration"]
        else ["BMigration"]⟩
    ⟨[("development", ⟨"localhost", 27017, "devdb"⟩)], none⟩ "development"
    (by decide)
  exact ⟨h.1, h.2 (by decide) (by decide)⟩

/-! ## Claim C8 (corrected: an absent migration directory is silently
empty) -/

/-- Counterexample to claim C8 as stated: with the migration directory
absent (`glob` matches nothing), discovery returns an empty dictionary
with no error, and `migrate` / `list_migrations` report the ordinary
no-migrations outcomes instead of failing. -/
theorem C8_counterexample_absent_directory_silent :
    find_migrations ⟨none, fun _ => []⟩ = [] ∧
    migrate_cmd ⟨[("development", ⟨"localhost", 27017, "devdb"⟩)], none⟩
      ⟨none, fun _ => []⟩ "development" = .noMigrations ∧
    list_migrations_cmd ⟨[("development", ⟨"localhost", 27017, "devdb"⟩)], none⟩
      ⟨none, fun _ => []⟩ "development" = .noPending := by
  exact ⟨by decide, by decide, by decide⟩

/-- Claim C8 as amended: when the migration directory is absent, discovery
silently yields an empty result, and `migrate` / `list_migrations` report
"no migrations" outcomes and return normally rather than reporting a
configuration error. -/
theorem C8_absent_directory_empty
    (cfg : Config) (mc : String → List String) (env : String)
    (henv : env ∈ envNames cfg) :
    find_migrations ⟨none, mc⟩ = [] ∧
    migrate_cmd cfg ⟨none, mc⟩ env = .noMigrations ∧
    list_migrations_cmd cfg ⟨none, mc⟩ env = .noPending := by
  have hempty : find_migrations ⟨none, mc⟩ = [] := rfl
  refine ⟨hempty, ?_, ?_⟩
  · unfold migrate_cmd
    rw [if_neg (not_not_intro henv)]
    simp [hempty]
  · unfold list_migrations_cmd
    rw [if_neg (not_not_intro henv)]
    simp [hempty]

/-- Witness for C8 at a concrete configuration. -/
theorem C8_absent_directory_empty_witness :
    find_migrations ⟨none, fun _ => ["XMigration"]⟩ = [] ∧
    migrate_cmd ⟨[("production", ⟨"remotehost", 27017, "proddb"⟩)], none⟩
      ⟨none, fun _ => ["XMigration"]⟩ "production" = .noMigrations ∧
    list_migrations_cmd ⟨[("production", ⟨"remotehost", 27017, "proddb"⟩)], none⟩
      ⟨none, fun _ => ["XMigration"]⟩ "production" = .noPending :=
  C8_absent_directory_empty ⟨[("production", ⟨"remotehost", 27017, "proddb"⟩)], none⟩
    (fun _ => ["XMigration"]) "production" (by decide)

end Monarch
